import Mathlib

/-!
Shallow embedding of the safellm validation pipeline and of its two stateful
guards (rate limiter and similarity/duplicate detector), together with a model
of the sync-over-async bridge, translated from the Python sources:

* `src/safellm/decisions.py`  — the `Decision` value and its factory methods
* `src/safellm/pipeline.py`   — `Pipeline.validate`
* `src/safellm/guards/rate_limit.py` — `RateLimitGuard.check`
* `src/safellm/guards/similarity.py` — `SimilarityGuard.check` and helpers
* `src/safellm/guard.py`      — `AsyncGuard.check`

Modelling conventions:
* Python `float` timestamps are modelled by `ℚ`; integer configuration fields
  by `ℕ`.
* Python `dict` is modelled by an association list in insertion order
  (`dictSet` reproduces `d[k] = v`: replace in place when the key exists,
  append otherwise; `dictUpdate` reproduces `d.update(e)`).
* Guard exceptions are modelled with `Except String`: the pipeline model is a
  total function, mirroring the fact that `Pipeline.validate` catches every
  guard fault.
* MD5 is modelled as an injective fingerprint function (collisions assumed
  absent); the identity on strings preserves exactly the equality structure
  the guard relies on.
-/

namespace SafeLLM

/-- Evidence values stored in a decision's evidence map.  Python puts
heterogeneous values (strings, ints, floats, None) into the map; we tag them. -/
inductive EValue where
  | vStr : String → EValue
  | vNum : ℚ → EValue
  | vNone : EValue
deriving DecidableEq, Repr

deriving instance DecidableEq for Except

/-- Python `d[k] = v` on an insertion-ordered dict: if `k` is present the value
is replaced in place (key keeps its position), otherwise the pair is appended. -/
def dictSet {β : Type} (d : List (String × β)) (k : String) (v : β) :
    List (String × β) :=
  if d.any (fun p => p.1 == k) then
    d.map (fun p => if p.1 == k then (k, v) else p)
  else
    d ++ [(k, v)]

/-- Python `old.update(new)`: fold `dictSet` over the entries of `new`. -/
def dictUpdate {β : Type} (old new : List (String × β)) : List (String × β) :=
  new.foldl (fun acc p => dictSet acc p.1 p.2) old

/-- Action tag of a decision (`decisions.py`, the `action` literal). -/
inductive DAction where
  | allow | deny | transform | retry
deriving DecidableEq, Repr

/-- Decision record (`decisions.py`, class `Decision`). -/
structure Decision (α : Type) where
  allowed : Bool
  action : DAction
  reasons : List String
  evidence : List (String × EValue)
  output : α
  auditId : String
deriving Repr, DecidableEq

/-- Factory `Decision.allow` (`decisions.py` lines 27-43): reasons are always
set to the empty list.  The pipeline always passes an explicit audit id, so the
uuid fallback is not modelled. -/
def Decision.allowD {α : Type} (output : α) (auditId : String)
    (evidence : List (String × EValue)) : Decision α :=
  ⟨true, DAction.allow, [], evidence, output, auditId⟩

/-- Factory `Decision.deny` (`decisions.py` lines 45-62). -/
def Decision.denyD {α : Type} (output : α) (reasons : List String)
    (auditId : String) (evidence : List (String × EValue)) : Decision α :=
  ⟨false, DAction.deny, reasons, evidence, output, auditId⟩

/-- Factory `Decision.transform` (`decisions.py` lines 64-82): `output` is the
transformed payload. -/
def Decision.transformD {α : Type} (_original transformed : α)
    (reasons : List String) (auditId : String)
    (evidence : List (String × EValue)) : Decision α :=
  ⟨true, DAction.transform, reasons, evidence, transformed, auditId⟩

/-- Factory `Decision.retry` (`decisions.py` lines 84-101). -/
def Decision.retryD {α : Type} (output : α) (reasons : List String)
    (auditId : String) (evidence : List (String × EValue)) : Decision α :=
  ⟨false, DAction.retry, reasons, evidence, output, auditId⟩

/-- A guard as seen by one `Pipeline.validate` call: its name and its
`check` behaviour on the current data.  The context is fixed for the whole
call, so it is absorbed into `run`; a raised exception is modelled by
`Except.error` carrying the exception message. -/
structure GuardM (α : Type) where
  name : String
  run : α → Except String (Decision α)

/-- Pipeline `on_error` policy (`pipeline.py` line 28, the literal
`"deny" | "allow" | "transform"`). -/
inductive OnError where
  | deny | allow | transform
deriving DecidableEq, Repr

/-- Synthesized reason for a guard fault (`pipeline.py` line 120). -/
def errorReason (guardName msg : String) : String :=
  "Guard " ++ guardName ++ " failed: " ++ msg

/-- Synthetic reason for a clean transforming run (`pipeline.py` line 159). -/
def appliedReason (n : Nat) : String :=
  "Applied " ++ toString n ++ " transformation(s)"

/-- Core loop of `Pipeline.validate` (`pipeline.py` lines 59-168), from an
arbitrary intermediate accumulator state.  Arguments after the configuration
mirror the Python local state: remaining guards, `current_data`, `all_reasons`,
`all_evidence`, `transformations`.  Besides the final decision we return the
list of names of the guards that were invoked from this point on (`guard.check`
called), which instruments the claim "no later guard is invoked". -/
def validateGo {α : Type} (failFast : Bool) (onError : OnError)
    (auditId : String) (origData : α) :
    List (GuardM α) → α → List String → List (String × EValue) → Nat →
    Decision α × List String
  | [], current, allReasons, allEvidence, transformations =>
      if allReasons ≠ [] then
        if transformations > 0 then
          (Decision.transformD origData current allReasons auditId allEvidence, [])
        else
          (Decision.allowD current auditId allEvidence, [])
      else
        if transformations > 0 then
          (Decision.transformD origData current [appliedReason transformations]
            auditId allEvidence, [])
        else
          (Decision.allowD current auditId allEvidence, [])
  | g :: rest, current, allReasons, allEvidence, transformations =>
      match g.run current with
      | Except.ok d =>
        let rs := allReasons ++ d.reasons
        let ev := dictUpdate allEvidence d.evidence
        match d.action with
        | DAction.deny =>
            if failFast then
              (Decision.denyD current rs auditId ev, [g.name])
            else
              let r := validateGo failFast onError auditId origData rest
                current rs ev transformations
              (r.1, g.name :: r.2)
        | DAction.transform =>
            let r := validateGo failFast onError auditId origData rest
              d.output rs ev (transformations + 1)
            (r.1, g.name :: r.2)
        | DAction.retry =>
            if failFast then
              (Decision.retryD current rs auditId ev, [g.name])
            else
              let r := validateGo failFast onError auditId origData rest
                current rs ev transformations
              (r.1, g.name :: r.2)
        | DAction.allow =>
            let r := validateGo failFast onError auditId origData rest
              current rs ev transformations
            (r.1, g.name :: r.2)
      | Except.error e =>
        let rs := allReasons ++ [errorReason g.name e]
        if onError = OnError.deny ∨ failFast = true then
          (Decision.denyD current rs auditId allEvidence, [g.name])
        else
          let r := validateGo failFast onError auditId origData rest
            current rs allEvidence transformations
          (r.1, g.name :: r.2)

/-- Pipeline record (`pipeline.py`, constructor arguments). -/
structure Pipeline (α : Type) where
  pname : String
  steps : List (GuardM α)
  failFast : Bool
  onError : OnError

/-- Entry point `Pipeline.validate` (`pipeline.py` line 46): starts the loop
with `current := data`, empty reasons/evidence and zero transformations.  The
second component is the instrumented list of invoked guard names. -/
def Pipeline.validate {α : Type} (p : Pipeline α) (data : α)
    (auditId : String) : Decision α × List String :=
  validateGo p.failFast p.onError auditId data p.steps data [] [] 0

/-- Request context fields read by the stateful guards (`context.py`):
audit id, optional user role, and the open metadata map (values coerced to
strings on use, as `str(...)` does in `_get_rate_key`). -/
structure ContextM where
  auditId : String
  userRole : Option String
  metadata : List (String × String)

/-- Configuration of `RateLimitGuard` (`rate_limit.py` lines 17-35). -/
structure RLConfig where
  maxRequests : Nat
  windowSeconds : Nat
  keyExtractor : String
  blockDuration : Nat
deriving Repr

/-- Mutable state of `RateLimitGuard`: `request_history` is a
`defaultdict(deque)` (absent key behaves as the empty sequence), and
`blocked_until` is an ordinary dict (key presence matters). -/
structure RLState where
  requestHistory : String → List ℚ
  blockedUntil : String → Option ℚ

/-- Fresh guard state: both stores empty. -/
def RLState.empty : RLState :=
  ⟨fun _ => [], fun _ => none⟩

/-- Key extraction `RateLimitGuard._get_rate_key` (`rate_limit.py`
lines 106-116).  Python's `ctx.user_role or "anonymous"` treats the empty
string as falsy. -/
def getRateKey (keyExtractor : String) (ctx : ContextM) : String :=
  if keyExtractor = "audit_id" then ctx.auditId
  else if keyExtractor = "user_role" then
    match ctx.userRole with
    | some r => if r = "" then "anonymous" else r
    | none => "anonymous"
  else
    match ctx.metadata.lookup keyExtractor with
    | some v => v
    | none => "default"

/-- Window trimming (`rate_limit.py` lines 73-74): pop entries from the front
of the deque while they are strictly older than the cutoff. -/
def trimWindow (cutoff : ℚ) (l : List ℚ) : List ℚ :=
  l.dropWhile (fun t => t < cutoff)

/-- Open-state part of `RateLimitGuard.check` (`rate_limit.py` lines 69-104),
entered once no active block remains: trim the key's window, then either deny
and set the block (count at limit) or append `now` and allow. -/
def rlCheckOpen (cfg : RLConfig) (s : RLState) (data rateKey auditId : String)
    (now : ℚ) : Decision String × RLState :=
  let trimmed := trimWindow (now - (cfg.windowSeconds : ℚ)) (s.requestHistory rateKey)
  if cfg.maxRequests ≤ trimmed.length then
    (Decision.denyD data
      ["Rate limit of " ++ toString cfg.maxRequests ++ " requests per "
        ++ toString cfg.windowSeconds ++ "s exceeded"]
      auditId
      [("rate_key", EValue.vStr rateKey),
       ("requests_in_window", EValue.vNum trimmed.length),
       ("max_requests", EValue.vNum cfg.maxRequests),
       ("window_seconds", EValue.vNum cfg.windowSeconds),
       ("blocked_for_seconds", EValue.vNum cfg.blockDuration)],
     { requestHistory := fun k => if k = rateKey then trimmed else s.requestHistory k,
       blockedUntil := fun k =>
         if k = rateKey then some (now + (cfg.blockDuration : ℚ)) else s.blockedUntil k })
  else
    (Decision.allowD data auditId
      [("rate_key", EValue.vStr rateKey),
       ("requests_in_window", EValue.vNum (trimmed.length + 1)),
       ("requests_remaining", EValue.vNum (cfg.maxRequests - (trimmed.length + 1)))],
     { requestHistory := fun k =>
         if k = rateKey then trimmed ++ [now] else s.requestHistory k,
       blockedUntil := s.blockedUntil })

/-- `RateLimitGuard.check` (`rate_limit.py` lines 45-104), with the rate key
already resolved and `time.time()` passed in as `now`.  If an unexpired block
exists the request is denied without touching the history; an expired block is
deleted and the open-state path runs. -/
def rlCheck (cfg : RLConfig) (s : RLState) (data rateKey auditId : String)
    (now : ℚ) : Decision String × RLState :=
  match s.blockedUntil rateKey with
  | some bu =>
    if now < bu then
      (Decision.denyD data
        ["Rate limit exceeded. Blocked for " ++ toString (⌊bu - now⌋) ++ " more seconds"]
        auditId
        [("rate_key", EValue.vStr rateKey),
         ("blocked_until", EValue.vNum bu),
         ("remaining_seconds", EValue.vNum (⌊bu - now⌋ : ℤ))], s)
    else
      rlCheckOpen cfg
        { s with blockedUntil := fun k => if k = rateKey then none else s.blockedUntil k }
        data rateKey auditId now
  | none => rlCheckOpen cfg s data rateKey auditId now

/-- `RateLimitGuard.check` taking the raw context, resolving the key exactly as
the source does on entry. -/
def rlCheckCtx (cfg : RLConfig) (s : RLState) (data : String) (ctx : ContextM)
    (now : ℚ) : Decision String × RLState :=
  rlCheck cfg s data (getRateKey cfg.keyExtractor ctx) ctx.auditId now

/-- Fingerprint function standing for `hashlib.md5(...).hexdigest()`: modelled
as an injective map on strings (collisions assumed absent), for which the
identity preserves exactly the equality structure the guard uses. -/
def md5Model (s : String) : String := s

/-- Stop words removed by `SimilarityGuard._normalize_text`
(`similarity.py` lines 118-121). -/
def stopWords : List String :=
  ["the", "a", "an", "and", "or", "but", "in", "on", "at", "to", "for",
   "of", "with", "by", "is", "are", "was", "were", "be", "been", "being"]

/-- Membership in the stop-word set. -/
def isStopWord (w : String) : Bool := stopWords.contains w

/-- Regex step `re.sub(r'\s+', ' ', _)`: collapse every maximal run of
whitespace to a single space.  The boolean tracks whether the previous
character was whitespace. -/
def collapseWsAux : List Char → Bool → List Char
  | [], _ => []
  | c :: rest, prevWs =>
    if c.isWhitespace then
      if prevWs then collapseWsAux rest true
      else ' ' :: collapseWsAux rest true
    else c :: collapseWsAux rest false

/-- Regex step `re.sub(r'[^a-z0-9\s]', '', _)`: keep lowercase ASCII letters,
digits and whitespace. -/
def keepAlnumWs (c : Char) : Bool :=
  ('a' ≤ c && c ≤ 'z') || c.isDigit || c.isWhitespace

/-- Accumulator loop for Python `str.split()` with no arguments: split on
whitespace runs, discarding empty pieces (`acc` holds the reversed current
word). -/
def splitWsAux : List Char → List Char → List String
  | [], acc => if acc.isEmpty then [] else [String.mk acc.reverse]
  | c :: rest, acc =>
    if c.isWhitespace then
      if acc.isEmpty then splitWsAux rest []
      else String.mk acc.reverse :: splitWsAux rest []
    else splitWsAux rest (c :: acc)

/-- Python `str.split()` with no arguments. -/
def pySplit (s : String) : List String := splitWsAux s.data []

/-- Python `str.strip()`: drop leading and trailing whitespace. -/
def pyStrip (s : String) : String :=
  String.mk (((s.data.dropWhile Char.isWhitespace).reverse.dropWhile
    Char.isWhitespace).reverse)

/-- Python `' '.join(words)`. -/
def joinSpace : List String → String
  | [] => ""
  | [w] => w
  | w :: rest => w ++ " " ++ joinSpace rest

/-- `SimilarityGuard._normalize_text` (`similarity.py` lines 106-125):
lower-case, collapse whitespace, strip punctuation, drop stop words, re-join
with single spaces and strip. -/
def normalizeText (text : String) : String :=
  let lowered := String.mk (text.data.map Char.toLower)
  let collapsed := String.mk (collapseWsAux lowered.data false)
  let cleaned := String.mk (collapsed.data.filter keepAlnumWs)
  let words := pySplit cleaned
  let filteredWords := words.filter (fun w => !(isStopWord w))
  pyStrip (joinSpace filteredWords)

/-- `SimilarityGuard._calculate_similarity` (`similarity.py` lines 153-168):
Jaccard similarity of whitespace-token sets, with two guards taken in source
order: any empty *string* scores 0.0 before the both-empty-set branch (which
is therefore reachable only for whitespace-only nonempty strings). -/
def calculateSimilarity (text1 text2 : String) : ℚ :=
  if text1 = "" ∨ text2 = "" then 0
  else
    let s1 := (pySplit text1).toFinset
    let s2 := (pySplit text2).toFinset
    if s1 = ∅ ∧ s2 = ∅ then 1
    else
      let inter := (s1 ∩ s2).card
      let uni := (s1 ∪ s2).card
      if 0 < uni then (inter : ℚ) / (uni : ℚ) else 0

/-- Metadata stored per exact content hash (`similarity.py` lines 184-190). -/
structure FingerInfo where
  auditId : String
  timestamp : ℚ
  normalizedHash : String
  userRole : Option String
  model : Option String
deriving DecidableEq, Repr

/-- Mutable state of `SimilarityGuard`: the two insertion-ordered dicts
`content_hashes` (exact hash → metadata) and `normalized_content`
(normalized hash → normalized text). -/
structure SimState where
  contentHashes : List (String × FingerInfo)
  normalizedContent : List (String × String)
deriving DecidableEq, Repr

/-- Fresh guard state: both stores empty. -/
def SimState.empty : SimState := ⟨[], []⟩

/-- Configuration of `SimilarityGuard` (`similarity.py` lines 17-35);
`actionBlock` is true for `action="block"`, false for `action="flag"`. -/
structure SimConfig where
  similarityThreshold : ℚ
  actionBlock : Bool
  maxHistorySize : Nat
  useFuzzyMatching : Bool
deriving Repr

/-- Best-match record built by `_find_similar_content`; `mauditId` is the
`audit_id` field merged in by the metadata-enrichment loop when a stored
fingerprint with the matching normalized hash exists. -/
structure SimMatch where
  mhash : String
  similarity : ℚ
  mtext : String
  mauditId : Option String
deriving Repr

/-- Metadata-enrichment loop inside `_find_similar_content` (`similarity.py`
lines 146-149): first fingerprint whose `normalized_hash` equals the stored
hash. -/
def findInfoByNormHash : List (String × FingerInfo) → String → Option FingerInfo
  | [], _ => none
  | (_, info) :: rest, nh =>
    if info.normalizedHash = nh then some info else findInfoByNormHash rest nh

/-- Scan loop of `_find_similar_content` (`similarity.py` lines 132-149) over
the `normalized_content` items, keeping the strictly best similarity seen. -/
def findSimilarGo (ch : List (String × FingerInfo)) (query : String) :
    List (String × String) → ℚ → Option SimMatch → ℚ × Option SimMatch
  | [], best, bestMatch => (best, bestMatch)
  | (storedHash, storedText) :: rest, best, bestMatch =>
    let sim := calculateSimilarity query storedText
    if best < sim then
      let enriched : Option SimMatch :=
        match findInfoByNormHash ch storedHash with
        | some info => some ⟨storedHash, sim, storedText, some info.auditId⟩
        | none => some ⟨storedHash, sim, storedText, none⟩
      findSimilarGo ch query rest sim enriched
    else
      findSimilarGo ch query rest best bestMatch

/-- `SimilarityGuard._find_similar_content` (`similarity.py` lines 127-151):
empty query short-circuits to no match; otherwise the scan result is returned
only when the best similarity is strictly positive. -/
def findSimilarContent (s : SimState) (normalizedText : String) :
    Option SimMatch :=
  if normalizedText = "" then none
  else
    let r := findSimilarGo s.contentHashes normalizedText s.normalizedContent 0 none
    if 0 < r.1 then r.2 else none

/-- `SimilarityGuard._store_content` (`similarity.py` lines 170-192).  Note the
cleanup of `normalized_content` looks up `oldest_hash` — a *content* hash — in
the dict keyed by *normalized* hashes, exactly as the source does.  The `[]`
branch of the match models the otherwise-raising `next(iter({}))`, reachable
only with `maxHistorySize = 0`. -/
def storeContent (cfg : SimConfig) (s : SimState)
    (contentHash normalizedHash normalizedText auditId : String)
    (userRole modelName : Option String) (now : ℚ) : SimState :=
  let s1 :=
    if cfg.maxHistorySize ≤ s.contentHashes.length then
      match s.contentHashes with
      | [] => s
      | (oldestHash, _) :: _ =>
        { contentHashes := s.contentHashes.filter (fun p => p.1 != oldestHash),
          normalizedContent :=
            if (s.normalizedContent.lookup oldestHash).isSome then
              s.normalizedContent.filter (fun p => p.1 != oldestHash)
            else s.normalizedContent }
    else s
  { contentHashes := dictSet s1.contentHashes contentHash
      ⟨auditId, now, normalizedHash, userRole, modelName⟩,
    normalizedContent := dictSet s1.normalizedContent normalizedHash normalizedText }

/-- Two-decimal formatting of the similarity score, standing for Python's
`f"{score:.2f}"` (ties rounded up rather than half-even; the string is purely
diagnostic). -/
def formatFix2 (q : ℚ) : String :=
  let n : Nat := (Int.floor (q * 100 + 1 / 2)).toNat
  toString (n / 100) ++ "." ++
    (if n % 100 < 10 then "0" ++ toString (n % 100) else toString (n % 100))

/-- `SimilarityGuard._handle_similarity_detection` (`similarity.py`
lines 194-210): deny when configured to block, allow (flag-only) otherwise. -/
def handleSimilarityDetection (cfg : SimConfig) (data : String)
    (reasons : List String) (evidence : List (String × EValue))
    (auditId : String) : Decision String :=
  if cfg.actionBlock then Decision.denyD data reasons auditId evidence
  else Decision.allowD data auditId evidence

/-- `SimilarityGuard.check` (`similarity.py` lines 45-104), on string input
(`str(data)` coercion elided), with `time.time()` passed in as `now` and the
context fields the guard reads passed explicitly. -/
def simCheck (cfg : SimConfig) (s : SimState) (text auditId : String)
    (userRole modelName : Option String) (now : ℚ) :
    Decision String × SimState :=
  let contentHash := md5Model text
  let normalized := normalizeText text
  let normalizedHash := md5Model normalized
  let evidence0 : List (String × EValue) :=
    [("content_hash", EValue.vStr contentHash),
     ("normalized_hash", EValue.vStr normalizedHash),
     ("text_length", EValue.vNum text.length),
     ("normalized_length", EValue.vNum normalized.length)]
  match s.contentHashes.lookup contentHash with
  | some prev =>
    let reasons := ["Exact duplicate content detected"]
    let evidence := dictUpdate evidence0
      [("duplicate_type", EValue.vStr "exact"),
       ("previous_audit_id", EValue.vStr prev.auditId),
       ("previous_timestamp", EValue.vNum prev.timestamp)]
    (handleSimilarityDetection cfg text reasons evidence auditId, s)
  | none =>
    let fuzzyHit : Option SimMatch :=
      if cfg.useFuzzyMatching then findSimilarContent s normalized else none
    match fuzzyHit with
    | some m =>
      if cfg.similarityThreshold ≤ m.similarity then
        let reasons :=
          ["Similar content detected (similarity: " ++ formatFix2 m.similarity ++ ")"]
        let evidence := dictUpdate evidence0
          [("duplicate_type", EValue.vStr "fuzzy"),
           ("similarity_score", EValue.vNum m.similarity),
           ("similar_hash", EValue.vStr m.mhash),
           ("similar_audit_id",
             match m.mauditId with
             | some a => EValue.vStr a
             | none => EValue.vNone)]
        let result := handleSimilarityDetection cfg text reasons evidence auditId
        (result,
         storeContent cfg s contentHash normalizedHash normalized auditId
           userRole modelName now)
      else
        (Decision.allowD text auditId evidence0,
         storeContent cfg s contentHash normalizedHash normalized auditId
           userRole modelName now)
    | none =>
      (Decision.allowD text auditId evidence0,
       storeContent cfg s contentHash normalizedHash normalized auditId
         userRole modelName now)

/-- A guard returning a fixed decision on every input (the shape of the
stateless detector guards used by the pipeline tests). -/
def mkConstGuard {α : Type} (nm : String) (d : Decision α) : GuardM α :=
  ⟨nm, fun _ => Except.ok d⟩

/-- A guard whose `check` raises an exception with the given message. -/
def mkErrorGuard {α : Type} (nm msg : String) : GuardM α :=
  ⟨nm, fun _ => Except.error msg⟩

/-- A guard transforming its input with the pure function `f` (the shape of
transforming guards such as the masking/normalizing guards). -/
def mkTransformGuard {α : Type} (nm : String) (f : α → α) (rs : List String)
    (ev : List (String × EValue)) (aid : String) : GuardM α :=
  ⟨nm, fun x => Except.ok (Decision.transformD x (f x) rs aid ev)⟩

/-- Rate-limiter fixture with `max_requests=1, window_seconds=60,
block_duration=5`. -/
def rlCfgA : RLConfig := ⟨1, 60, "user_role", 5⟩

/-- State of `rlCfgA` after one allowed check at time 0 for key `k`. -/
def rlC1s1 : RLState := (rlCheck rlCfgA RLState.empty "d" "k" "a" 0).2

/-- State of `rlCfgA` after the check at time 1 for key `k`, which is denied
and sets the block until time 6. -/
def rlC1s2 : RLState := (rlCheck rlCfgA rlC1s1 "d" "k" "a" 1).2

/-- Rate-limiter fixture with `max_requests=2, window_seconds=60` and a
parametric block duration, as in the spec's three-call scenario. -/
def rlCfgB (bd : Nat) : RLConfig := ⟨2, 60, "user_role", bd⟩

/-- First check of the three-call scenario, from fresh state at time `t0`. -/
def rlRun1 (bd : Nat) (data key aid : String) (t0 : ℚ) :
    Decision String × RLState :=
  rlCheck (rlCfgB bd) RLState.empty data key aid t0

/-- Second check of the three-call scenario, at time `t1`. -/
def rlRun2 (bd : Nat) (data key aid : String) (t0 t1 : ℚ) :
    Decision String × RLState :=
  rlCheck (rlCfgB bd) (rlRun1 bd data key aid t0).2 data key aid t1

/-- Third check of the three-call scenario, at time `t2`. -/
def rlRun3 (bd : Nat) (data key aid : String) (t0 t1 t2 : ℚ) :
    Decision String × RLState :=
  rlCheck (rlCfgB bd) (rlRun2 bd data key aid t0 t1).2 data key aid t2

/-- Rate-limiter state with an expired block for key `k` and one stale
timestamp far outside any window. -/
def rlStaleState : RLState :=
  ⟨fun k => if k = "k" then [(-100 : ℚ)] else [],
   fun k => if k = "k" then some 0 else none⟩

/-- Similarity fixture with history capacity 1 (flag action; fuzzy matching
off, which leaves the storage/eviction path — the subject of the capacity
claim — unchanged). -/
def simCfgLeak : SimConfig := ⟨8 / 10, false, 1, false⟩

/-- State of `simCfgLeak` after checking the string `X!`. -/
def simC5s1 : SimState := (simCheck simCfgLeak SimState.empty "X!" "a1" none none 0).2

/-- State of `simCfgLeak` after additionally checking the distinct string
`Y!`, which evicts the oldest exact-hash entry. -/
def simC5s2 : SimState := (simCheck simCfgLeak simC5s1 "Y!" "a2" none none 1).2

/-- Similarity fixture with threshold 0.0 and block action (fuzzy on). -/
def simCfgZero : SimConfig := ⟨0, true, 1000, true⟩

/-- State of `simCfgZero` after checking the string `hello`. -/
def simC6s1 : SimState := (simCheck simCfgZero SimState.empty "hello" "a1" none none 0).2

/-- Jaccard similarity as worded by the specification: set-based
`|intersection| / |union|` over whitespace-delimited tokens, with two empty
token sets defined as similarity 1.0 (an empty-vs-nonempty pair scores 0
through the quotient).  This is the spec-side definition used to compare the
claim's wording against `calculateSimilarity`. -/
def specJaccardSimilarity (t1 t2 : String) : ℚ :=
  let s1 := (pySplit t1).toFinset
  let s2 := (pySplit t2).toFinset
  if s1 = ∅ ∧ s2 = ∅ then 1
  else ((s1 ∩ s2).card : ℚ) / ((s1 ∪ s2).card : ℚ)

/-- Maximum spec-side Jaccard similarity of a query against a list of stored
normalized texts (0 when the list is empty). -/
def specMaxSimilarity (stored : List String) (query : String) : ℚ :=
  stored.foldl (fun acc t => max acc (specJaccardSimilarity query t)) 0

/-- Model of `asyncio.get_running_loop()`: raises `RuntimeError` when no loop
is running, succeeds otherwise. -/
def getRunningLoopRaises (loopRunning : Bool) : Except String Unit :=
  if loopRunning then Except.ok () else Except.error "no running event loop"

/-- The descriptive message `AsyncGuard.check` builds (`guard.py`
lines 94-97). -/
def syncCheckDescriptiveMsg (guardName : String) : String :=
  "Cannot call sync check() on async guard " ++ guardName ++
    " from within an async context. Use acheck() instead."

/-- Body of the `try` block in `AsyncGuard.check` (`guard.py` lines 92-97):
probe for a running loop and, if one exists, raise the descriptive error. -/
def asyncGuardTryBody (loopRunning : Bool) (guardName : String) :
    Except String Unit :=
  match getRunningLoopRaises loopRunning with
  | Except.ok _ => Except.error (syncCheckDescriptiveMsg guardName)
  | Except.error e => Except.error e

/-- The error `asyncio.run` itself raises when invoked with a loop already
running. -/
def asyncioRunMsg : String :=
  "asyncio.run() cannot be called from a running event loop"

/-- Model of `asyncio.run(self.acheck(...))`: refuses to run inside an active
loop, otherwise yields the `acheck` result. -/
def asyncioRun (loopRunning : Bool) (acheckResult : Decision String) :
    Except String (Decision String) :=
  if loopRunning then Except.error asyncioRunMsg else Except.ok acheckResult

/-- `AsyncGuard.check` (`guard.py` lines 83-102).  Whatever the `try` body
raises — including the guard's own descriptive `RuntimeError` — is caught by
the `except RuntimeError: pass` clause, after which control always reaches
`asyncio.run`. -/
def asyncGuardCheck (loopRunning : Bool) (guardName : String)
    (acheckResult : Decision String) : Except String (Decision String) :=
  match asyncGuardTryBody loopRunning guardName with
  | Except.ok _ => asyncioRun loopRunning acheckResult
  | Except.error _ => asyncioRun loopRunning acheckResult

/-! ### Pipeline claims -/

/-- C2: a run of `Pipeline.validate` that reaches the end of the guard list
obeys the precedence transform > soft-allow > clean-allow.  Part one: from any
accumulator state with at least one transformation, the final decision is a
transform whose output is the running data (the last transformed value),
carrying the accumulated reasons, or the single synthetic
`Applied N transformation(s)` reason when none were accumulated.  Part two:
with no transformation the final decision is an allow whose output is the
running data.  Part three (transform chaining): for two transforming guards A
then B the pipeline output equals `B (A input)`. -/
theorem pipeline_final_precedence {α : Type} (ff : Bool) (oe : OnError)
    (aid : String) (orig current : α) (rs : List String)
    (ev : List (String × EValue)) (t : Nat)
    (nmA nmB : String) (fA fB : α → α) (rsA rsB : List String)
    (evA evB : List (String × EValue)) (data : α) :
    (0 < t → validateGo ff oe aid orig [] current rs ev t =
      (Decision.transformD orig current
        (if rs = [] then [appliedReason t] else rs) aid ev, []))
    ∧ validateGo ff oe aid orig [] current rs ev 0 =
        (Decision.allowD current aid ev, [])
    ∧ (Pipeline.validate
        ⟨"p", [mkTransformGuard nmA fA rsA evA aid,
               mkTransformGuard nmB fB rsB evB aid], ff, oe⟩
        data aid).1.output = fB (fA data) := by
  refine ⟨?_, ?_, ?_⟩
  · intro ht
    by_cases hrs : rs = []
    · subst hrs
      simp [validateGo, ht]
    · simp [validateGo, hrs, ht]
  · by_cases hrs : rs = []
    · subst hrs
      simp [validateGo]
    · simp [validateGo, hrs]
  · simp only [Pipeline.validate, validateGo, mkTransformGuard,
      Decision.transformD, Decision.allowD]
    split <;> simp [Decision.transformD]

/-- Witness for C2 at concrete inputs: accumulated reasons survive a
transforming run, a reason-free transform-free run is a clean allow, and the
two-transform pipeline `Uppercase`-style chain composes. -/
theorem pipeline_final_precedence_witness :
    validateGo false OnError.deny "a" "o" ([] : List (GuardM String))
      "c" ["r1"] [] 2 = (Decision.transformD "o" "c" ["r1"] "a" [], [])
    ∧ validateGo false OnError.deny "a" "o" ([] : List (GuardM String))
      "c" [] [] 0 = (Decision.allowD "c" "a" [], [])
    ∧ (Pipeline.validate
        ⟨"p", [mkTransformGuard "A" (fun s => s ++ "A") [] [] "a",
               mkTransformGuard "B" (fun s => s ++ "B") [] [] "a"],
         true, OnError.deny⟩ "x" "a").1.output = "xAB" := by
  have h := pipeline_final_precedence (α := String) false OnError.deny "a" "o"
    "c" ["r1"] [] 2 "A" "B" (fun s => s ++ "A") (fun s => s ++ "B") [] [] [] [] "x"
  have h0 := pipeline_final_precedence (α := String) true OnError.deny "a" "o"
    "c" ["r1"] [] 2 "A" "B" (fun s => s ++ "A") (fun s => s ++ "B") [] [] [] [] "x"
  refine ⟨by simpa using h.1 (by decide), by simpa using h.2.1, by simpa using h0.2.2⟩

/-- C3: with `fail_fast` true, a guard returning deny makes the pipeline
return a deny decision immediately, carrying the reasons and evidence
accumulated up to and including that guard, and invoking no later guard.  The
accumulators `rs`, `ev`, `t` range over every intermediate state of the loop
(`Pipeline.validate` starts it at `[] [] 0`), so instantiating them with the
state reached just before guard *i* settles the claim for every index *i*; the
invoked-trace component `[g.name]` shows that from that point only guard *i*
itself ran. -/
theorem pipeline_failfast_deny_stops {α : Type} (oe : OnError) (aid : String)
    (orig : α) (g : GuardM α) (rest : List (GuardM α)) (current : α)
    (rs : List String) (ev : List (String × EValue)) (t : Nat)
    (d : Decision α) (hrun : g.run current = Except.ok d)
    (hdeny : d.action = DAction.deny) :
    validateGo true oe aid orig (g :: rest) current rs ev t =
      (Decision.denyD current (rs ++ d.reasons) aid (dictUpdate ev d.evidence),
       [g.name]) := by
  simp [validateGo, hrun, hdeny]

/-- Witness for C3: a denying guard followed by another guard; the pipeline
stops at the denier and the second guard's name is absent from the trace. -/
theorem pipeline_failfast_deny_stops_witness :
    validateGo true OnError.deny "a" "o"
      [mkConstGuard "g" (Decision.denyD "c" ["bad"] "a" []),
       mkConstGuard "h" (Decision.allowD "c" "a" [])] "c" [] [] 0 =
      (Decision.denyD "c" ["bad"] "a" [], ["g"]) := by
  have h := pipeline_failfast_deny_stops OnError.deny "a" "o"
    (mkConstGuard "g" (Decision.denyD "c" ["bad"] "a" []))
    [mkConstGuard "h" (Decision.allowD "c" "a" [])] "c" [] [] 0
    (Decision.denyD "c" ["bad"] "a" []) rfl rfl
  simpa [dictUpdate] using h

/-- C4: a guard fault never escapes `Pipeline.validate` (the model is a total
function into decisions).  On a fault the synthesized reason
`Guard <name> failed: <msg>` is appended; then if `on_error` is deny or
`fail_fast` is true the pipeline immediately returns a deny decision with the
accumulated reasons and evidence, and otherwise (`on_error` allow, or the
continue-style transform variant) it moves on to the next guard with the
current data, evidence and transform count unchanged. -/
theorem pipeline_fault_absorbed {α : Type} (ff : Bool) (oe : OnError)
    (aid : String) (orig : α) (g : GuardM α) (rest : List (GuardM α))
    (current : α) (rs : List String) (ev : List (String × EValue)) (t : Nat)
    (e : String) (hrun : g.run current = Except.error e) :
    ((oe = OnError.deny ∨ ff = true) →
      validateGo ff oe aid orig (g :: rest) current rs ev t =
        (Decision.denyD current (rs ++ [errorReason g.name e]) aid ev,
         [g.name]))
    ∧ (oe ≠ OnError.deny → ff = false →
      validateGo ff oe aid orig (g :: rest) current rs ev t =
        ((validateGo ff oe aid orig rest current
            (rs ++ [errorReason g.name e]) ev t).1,
         g.name ::
           (validateGo ff oe aid orig rest current
             (rs ++ [errorReason g.name e]) ev t).2)) := by
  constructor
  · intro hcond
    simp [validateGo, hrun, hcond]
  · intro hoe hff
    subst hff
    simp [validateGo, hrun, hoe]

/-- Witness for C4: a raising guard under `on_error = deny` yields an
immediate deny carrying the synthesized reason, and under
`on_error = allow, fail_fast = false` the next guard still runs. -/
theorem pipeline_fault_absorbed_witness :
    validateGo true OnError.deny "a" "o"
      [mkErrorGuard "g" "boom", mkConstGuard "h" (Decision.allowD "c" "a" [])]
      "c" [] [] 0 =
      (Decision.denyD "c" ["Guard g failed: boom"] "a" [], ["g"])
    ∧ validateGo false OnError.allow "a" "o"
      [mkErrorGuard "g" "boom", mkConstGuard "h" (Decision.allowD "c" "a" [])]
      "c" [] [] 0 =
      ((validateGo false OnError.allow "a" "o"
          [mkConstGuard "h" (Decision.allowD "c" "a" [])]
          "c" ["Guard g failed: boom"] [] 0).1,
       "g" :: (validateGo false OnError.allow "a" "o"
          [mkConstGuard "h" (Decision.allowD "c" "a" [])]
          "c" ["Guard g failed: boom"] [] 0).2) := by
  constructor
  · have h := (pipeline_fault_absorbed true OnError.deny "a" "o"
      (mkErrorGuard "g" "boom")
      [mkConstGuard "h" (Decision.allowD "c" "a" [])]
      "c" [] [] 0 "boom" rfl).1 (Or.inl rfl)
    simpa [errorReason] using h
  · have h := (pipeline_fault_absorbed false OnError.allow "a" "o"
      (mkErrorGuard "g" "boom")
      [mkConstGuard "h" (Decision.allowD "c" "a" [])]
      "c" [] [] 0 "boom" rfl).2 (by decide) rfl
    simpa [errorReason] using h

/-- C9: a run that reaches the end of the guard list with accumulated reasons
but no transformation returns the `Decision.allow` factory value, whose
reasons list is always empty — the accumulated reasons are dropped and only
the merged evidence map survives in the final decision.  (The statement holds
for either `fail_fast` value; the state is only reachable when it is false or
when no guard denied.) -/
theorem pipeline_soft_reasons_dropped {α : Type} (ff : Bool) (oe : OnError)
    (aid : String) (orig current : α) (rs : List String)
    (ev : List (String × EValue)) (hrs : rs ≠ []) :
    validateGo ff oe aid orig [] current rs ev 0 =
      (Decision.allowD current aid ev, [])
    ∧ (validateGo ff oe aid orig [] current rs ev 0).1.reasons = [] := by
  constructor
  · simp [validateGo, hrs]
  · simp [validateGo, hrs, Decision.allowD]

/-- Witness for C9: a pending reason from a non-fail-fast deny disappears from
the final allow decision while the evidence survives. -/
theorem pipeline_soft_reasons_dropped_witness :
    validateGo false OnError.allow "a" "o" ([] : List (GuardM String))
      "c" ["soft issue"] [("k", EValue.vStr "v")] 0 =
      (Decision.allowD "c" "a" [("k", EValue.vStr "v")], [])
    ∧ (validateGo false OnError.allow "a" "o" ([] : List (GuardM String))
        "c" ["soft issue"] [("k", EValue.vStr "v")] 0).1.reasons = [] :=
  pipeline_soft_reasons_dropped false OnError.allow "a" "o" "c"
    ["soft issue"] [("k", EValue.vStr "v")] (by decide)

/-! ### Rate limiter: helper lemmas -/

/-- Trimming only drops from the front: the result is a suffix. -/
theorem trimWindow_suffix (c : ℚ) (l : List ℚ) : trimWindow c l <:+ l :=
  List.dropWhile_suffix _

/-- With no entry for the key in `blocked_until`, `check` goes straight to the
open-state path. -/
theorem rlCheck_none (cfg : RLConfig) (s : RLState) (data key aid : String)
    (now : ℚ) (h : s.blockedUntil key = none) :
    rlCheck cfg s data key aid now = rlCheckOpen cfg s data key aid now := by
  simp [rlCheck, h]

/-- With an expired block for the key, `check` deletes the block and runs the
open-state path on the cleared state. -/
theorem rlCheck_expired (cfg : RLConfig) (s : RLState) (data key aid : String)
    (now bu : ℚ) (h : s.blockedUntil key = some bu) (hle : bu ≤ now) :
    rlCheck cfg s data key aid now =
      rlCheckOpen cfg
        { s with blockedUntil := fun k => if k = key then none else s.blockedUntil k }
        data key aid now := by
  simp [rlCheck, h, not_lt.mpr hle]

/-- With an unexpired block, `check` denies and leaves the state untouched. -/
theorem rlCheck_blocked (cfg : RLConfig) (s : RLState) (data key aid : String)
    (now bu : ℚ) (h : s.blockedUntil key = some bu) (hlt : now < bu) :
    (rlCheck cfg s data key aid now).1.action = DAction.deny
    ∧ (rlCheck cfg s data key aid now).2 = s := by
  simp [rlCheck, h, hlt, Decision.denyD]

/-- Open-state path, at-limit branch: deny, keep the trimmed history and set
the block; other keys untouched. -/
theorem rlCheckOpen_deny (cfg : RLConfig) (s : RLState) (data key aid : String)
    (now : ℚ)
    (h : cfg.maxRequests ≤
      (trimWindow (now - (cfg.windowSeconds : ℚ)) (s.requestHistory key)).length) :
    (rlCheckOpen cfg s data key aid now).1.action = DAction.deny
    ∧ (rlCheckOpen cfg s data key aid now).2.requestHistory key
        = trimWindow (now - (cfg.windowSeconds : ℚ)) (s.requestHistory key)
    ∧ (rlCheckOpen cfg s data key aid now).2.blockedUntil key
        = some (now + (cfg.blockDuration : ℚ))
    ∧ (∀ k, k ≠ key →
        (rlCheckOpen cfg s data key aid now).2.requestHistory k
          = s.requestHistory k) := by
  refine ⟨?_, ?_, ?_, ?_⟩ <;>
    simp [rlCheckOpen, h, Decision.denyD]
  intro k hk
  simp [hk]

/-- Open-state path, under-limit branch: allow, append `now` to the trimmed
history, leave `blocked_until` alone; other keys untouched. -/
theorem rlCheckOpen_allow (cfg : RLConfig) (s : RLState) (data key aid : String)
    (now : ℚ)
    (h : (trimWindow (now - (cfg.windowSeconds : ℚ)) (s.requestHistory key)).length
      < cfg.maxRequests) :
    (rlCheckOpen cfg s data key aid now).1.action = DAction.allow
    ∧ (rlCheckOpen cfg s data key aid now).2.requestHistory key
        = trimWindow (now - (cfg.windowSeconds : ℚ)) (s.requestHistory key) ++ [now]
    ∧ (rlCheckOpen cfg s data key aid now).2.blockedUntil = s.blockedUntil
    ∧ (∀ k, k ≠ key →
        (rlCheckOpen cfg s data key aid now).2.requestHistory k
          = s.requestHistory k) := by
  refine ⟨?_, ?_, ?_, ?_⟩ <;>
    simp [rlCheckOpen, not_le.mpr h, Decision.allowD]
  intro k hk
  simp [hk]

/-- Open-state path, summarized: denial happens exactly at the limit, a deny
at the limit installs the block, and an under-limit check appends `now`. -/
theorem rlCheckOpen_law (cfg : RLConfig) (s : RLState) (data key aid : String)
    (now : ℚ) :
    ((rlCheckOpen cfg s data key aid now).1.action = DAction.deny
      ↔ cfg.maxRequests ≤
        (trimWindow (now - (cfg.windowSeconds : ℚ)) (s.requestHistory key)).length)
    ∧ (cfg.maxRequests ≤
        (trimWindow (now - (cfg.windowSeconds : ℚ)) (s.requestHistory key)).length →
      (rlCheckOpen cfg s data key aid now).2.blockedUntil key
        = some (now + (cfg.blockDuration : ℚ)))
    ∧ ((trimWindow (now - (cfg.windowSeconds : ℚ)) (s.requestHistory key)).length
        < cfg.maxRequests →
      (rlCheckOpen cfg s data key aid now).1.action = DAction.allow
      ∧ (rlCheckOpen cfg s data key aid now).2.requestHistory key
        = trimWindow (now - (cfg.windowSeconds : ℚ)) (s.requestHistory key) ++ [now]) := by
  refine ⟨?_, ?_, ?_⟩
  · constructor
    · intro hd
      by_contra hlen
      have ha := rlCheckOpen_allow cfg s data key aid now (not_le.mp hlen)
      rw [ha.1] at hd
      exact absurd hd (by decide)
    · intro hlen
      exact (rlCheckOpen_deny cfg s data key aid now hlen).1
  · intro hlen
    exact (rlCheckOpen_deny cfg s data key aid now hlen).2.2.1
  · intro hlt
    have ha := rlCheckOpen_allow cfg s data key aid now hlt
    exact ⟨ha.1, ha.2.1⟩

/-! ### Rate limiter claims -/

/-- C7: for `max_requests=2, window_seconds=60` from fresh state, three
consecutive checks with the same key inside the window yield allow, allow,
deny, the deny setting `blocked_until = now + block_duration`, while a
simultaneous check with a different key is still allowed; and in general, for
a key with no unexpired block, a check denies exactly when the trimmed window
count is at least `max_requests`, a deny at the limit sets the block, and
otherwise `now` is appended to the sequence and the check allows. -/
theorem rateLimit_window_behavior
    (data key key2 aid : String) (hkey : key2 ≠ key)
    (t0 t1 t2 : ℚ) (h01 : t0 ≤ t1) (h12 : t1 ≤ t2) (hw : t2 ≤ t0 + 60)
    (bd : Nat) (cfg : RLConfig) (s : RLState) (now : ℚ)
    (hnb : ∀ bu, s.blockedUntil key = some bu → bu ≤ now) :
    ((rlRun1 bd data key aid t0).1.action = DAction.allow
     ∧ (rlRun2 bd data key aid t0 t1).1.action = DAction.allow
     ∧ (rlRun3 bd data key aid t0 t1 t2).1.action = DAction.deny
     ∧ (rlRun3 bd data key aid t0 t1 t2).2.blockedUntil key
         = some (t2 + (bd : ℚ))
     ∧ (rlCheck (rlCfgB bd) (rlRun2 bd data key aid t0 t1).2 data key2 aid t2).1.action
         = DAction.allow)
    ∧ (((rlCheck cfg s data key aid now).1.action = DAction.deny
        ↔ cfg.maxRequests ≤
          (trimWindow (now - (cfg.windowSeconds : ℚ)) (s.requestHistory key)).length)
       ∧ (cfg.maxRequests ≤
            (trimWindow (now - (cfg.windowSeconds : ℚ)) (s.requestHistory key)).length →
          (rlCheck cfg s data key aid now).2.blockedUntil key
            = some (now + (cfg.blockDuration : ℚ)))
       ∧ ((trimWindow (now - (cfg.windowSeconds : ℚ)) (s.requestHistory key)).length
            < cfg.maxRequests →
          (rlCheck cfg s data key aid now).1.action = DAction.allow
          ∧ (rlCheck cfg s data key aid now).2.requestHistory key
            = trimWindow (now - (cfg.windowSeconds : ℚ)) (s.requestHistory key) ++ [now])) := by
  have hA : ¬ (t0 < t1 - 60) := by linarith
  have hB : ¬ (t0 < t2 - 60) := by linarith
  -- step 1: fresh state, empty window, allowed
  have e1 := rlCheck_none (rlCfgB bd) RLState.empty data key aid t0 rfl
  have o1 := rlCheckOpen_allow (rlCfgB bd) RLState.empty data key aid t0
    (by simp [trimWindow, RLState.empty, rlCfgB])
  have h1hist : (rlRun1 bd data key aid t0).2.requestHistory key = [t0] := by
    rw [rlRun1, e1, o1.2.1]
    simp [trimWindow, RLState.empty]
  have h1blk : (rlRun1 bd data key aid t0).2.blockedUntil key = none := by
    rw [rlRun1, e1, o1.2.2.1]
    rfl
  -- step 2: one entry in window, allowed
  have trim2 : trimWindow (t1 - ((rlCfgB bd).windowSeconds : ℚ))
      ((rlRun1 bd data key aid t0).2.requestHistory key) = [t0] := by
    rw [h1hist]
    simp [trimWindow, List.dropWhile_cons, rlCfgB, hA]
  have e2 := rlCheck_none (rlCfgB bd) (rlRun1 bd data key aid t0).2 data key aid t1 h1blk
  have o2 := rlCheckOpen_allow (rlCfgB bd) (rlRun1 bd data key aid t0).2 data key aid t1
    (by rw [trim2]; simp [rlCfgB])
  have h2hist : (rlRun2 bd data key aid t0 t1).2.requestHistory key = [t0, t1] := by
    rw [rlRun2, e2, o2.2.1, trim2]
    rfl
  have h2blk : (rlRun2 bd data key aid t0 t1).2.blockedUntil key = none := by
    rw [rlRun2, e2, o2.2.2.1]
    exact h1blk
  -- step 3: window full, denied and blocked
  have trim3 : trimWindow (t2 - ((rlCfgB bd).windowSeconds : ℚ))
      ((rlRun2 bd data key aid t0 t1).2.requestHistory key) = [t0, t1] := by
    rw [h2hist]
    simp [trimWindow, List.dropWhile_cons, rlCfgB, hB]
  have e3 := rlCheck_none (rlCfgB bd) (rlRun2 bd data key aid t0 t1).2 data key aid t2 h2blk
  have o3 := rlCheckOpen_deny (rlCfgB bd) (rlRun2 bd data key aid t0 t1).2 data key aid t2
    (by rw [trim3]; simp [rlCfgB])
  -- the simultaneous check under another key
  have h2blk2 : (rlRun2 bd data key aid t0 t1).2.blockedUntil key2 = none := by
    rw [rlRun2, e2, o2.2.2.1, rlRun1, e1, o1.2.2.1]
    rfl
  have h2hist2 : (rlRun2 bd data key aid t0 t1).2.requestHistory key2 = [] := by
    rw [rlRun2, e2, o2.2.2.2 key2 hkey, rlRun1, e1, o1.2.2.2 key2 hkey]
    rfl
  have eo := rlCheck_none (rlCfgB bd) (rlRun2 bd data key aid t0 t1).2 data key2 aid t2 h2blk2
  have oo := rlCheckOpen_allow (rlCfgB bd) (rlRun2 bd data key aid t0 t1).2 data key2 aid t2
    (by rw [h2hist2]; simp [trimWindow, rlCfgB])
  refine ⟨⟨?_, ?_, ?_, ?_, ?_⟩, ?_⟩
  · rw [rlRun1, e1]; exact o1.1
  · rw [rlRun2, e2]; exact o2.1
  · rw [rlRun3, e3]; exact o3.1
  · rw [rlRun3, e3]
    have := o3.2.2.1
    simpa [rlCfgB] using this
  · rw [eo]; exact oo.1
  -- general law for a key with no unexpired block
  · have hopen : rlCheck cfg s data key aid now = rlCheckOpen cfg s data key aid now
        ∨ rlCheck cfg s data key aid now =
          rlCheckOpen cfg
            { s with blockedUntil := fun k => if k = key then none else s.blockedUntil k }
            data key aid now := by
      cases hsb : s.blockedUntil key with
      | none => exact Or.inl (rlCheck_none cfg s data key aid now hsb)
      | some bu => exact Or.inr (rlCheck_expired cfg s data key aid now bu hsb (hnb bu hsb))
    rcases hopen with hq | hq
    · rw [hq]
      exact rlCheckOpen_law cfg s data key aid now
    · rw [hq]
      exact rlCheckOpen_law cfg _ data key aid now

/-- Witness for C7 at concrete inputs: times 0, 1, 2, keys `k` and `k2`,
block duration 300. -/
theorem rateLimit_window_behavior_witness :
    (rlRun1 300 "d" "k" "a" 0).1.action = DAction.allow
    ∧ (rlRun2 300 "d" "k" "a" 0 1).1.action = DAction.allow
    ∧ (rlRun3 300 "d" "k" "a" 0 1 2).1.action = DAction.deny
    ∧ (rlRun3 300 "d" "k" "a" 0 1 2).2.blockedUntil "k" = some ((2 : ℚ) + ((300 : Nat) : ℚ))
    ∧ (rlCheck (rlCfgB 300) (rlRun2 300 "d" "k" "a" 0 1).2 "d" "k2" "a" 2).1.action
        = DAction.allow :=
  (rateLimit_window_behavior "d" "k" "k2" "a" (by decide) 0 1 2 (by decide)
    (by decide) (by simp only [zero_add]; decide) 300 (rlCfgB 300) RLState.empty 0
    (fun bu hb => by simp [RLState.empty] at hb)).1

/-- Open-state path preserves the per-key length bound and never appends on a
deny. -/
theorem rlCheckOpen_history_bound (cfg : RLConfig) (s : RLState)
    (data key aid : String) (now : ℚ)
    (hinv : ∀ k, (s.requestHistory k).length ≤ cfg.maxRequests) :
    (∀ k, ((rlCheckOpen cfg s data key aid now).2.requestHistory k).length
      ≤ cfg.maxRequests)
    ∧ ((rlCheckOpen cfg s data key aid now).1.action = DAction.deny →
        (rlCheckOpen cfg s data key aid now).2.requestHistory key
          <:+ s.requestHistory key)
    ∧ (∀ k, k ≠ key →
        (rlCheckOpen cfg s data key aid now).2.requestHistory k
          = s.requestHistory k) := by
  by_cases hlen : cfg.maxRequests ≤
    (trimWindow (now - (cfg.windowSeconds : ℚ)) (s.requestHistory key)).length
  · have hd := rlCheckOpen_deny cfg s data key aid now hlen
    refine ⟨?_, ?_, hd.2.2.2⟩
    · intro k
      by_cases hk : k = key
      · subst hk
        rw [hd.2.1]
        exact le_trans (trimWindow_suffix _ _).length_le (hinv k)
      · rw [hd.2.2.2 k hk]
        exact hinv k
    · intro _
      rw [hd.2.1]
      exact trimWindow_suffix _ _
  · have ha := rlCheckOpen_allow cfg s data key aid now (not_le.mp hlen)
    refine ⟨?_, ?_, ha.2.2.2⟩
    · intro k
      by_cases hk : k = key
      · subst hk
        rw [ha.2.1]
        simpa using Nat.succ_le_of_lt (not_le.mp hlen)
      · rw [ha.2.2.2 k hk]
        exact hinv k
    · intro hd
      rw [ha.1] at hd
      exact absurd hd (by decide)

/-- C10: if every key's stored timestamp sequence is within the
`max_requests` bound before a check, it still is afterwards (so from the fresh
empty state the bound holds after every check); moreover a denied check never
appends a timestamp — the checked key's stored sequence afterwards is a suffix
of what was stored before (trimming only), and every other key's sequence is
untouched. -/
theorem rateLimit_history_bound (cfg : RLConfig) (s : RLState)
    (data key aid : String) (now : ℚ)
    (hinv : ∀ k, (s.requestHistory k).length ≤ cfg.maxRequests) :
    (∀ k, ((rlCheck cfg s data key aid now).2.requestHistory k).length
      ≤ cfg.maxRequests)
    ∧ ((rlCheck cfg s data key aid now).1.action = DAction.deny →
        (rlCheck cfg s data key aid now).2.requestHistory key
          <:+ s.requestHistory key)
    ∧ (∀ k, k ≠ key →
        (rlCheck cfg s data key aid now).2.requestHistory k
          = s.requestHistory k) := by
  cases hsb : s.blockedUntil key with
  | some bu =>
    by_cases hlt : now < bu
    · have hb := rlCheck_blocked cfg s data key aid now bu hsb hlt
      rw [hb.2]
      exact ⟨hinv, fun _ => List.suffix_refl _, fun k _ => rfl⟩
    · have hq := rlCheck_expired cfg s data key aid now bu hsb (not_lt.mp hlt)
      rw [hq]
      exact rlCheckOpen_history_bound cfg _ data key aid now hinv
  | none =>
    rw [rlCheck_none cfg s data key aid now hsb]
    exact rlCheckOpen_history_bound cfg s data key aid now hinv

/-- Witness for C10: fresh state, limit 2; the bound, the deny-suffix
implication and the other-keys clause all instantiate at key `k`, time 0. -/
theorem rateLimit_history_bound_witness :
    (∀ k, ((rlCheck (rlCfgB 300) RLState.empty "d" "k" "a" 0).2.requestHistory k).length
      ≤ (rlCfgB 300).maxRequests)
    ∧ ((rlCheck (rlCfgB 300) RLState.empty "d" "k" "a" 0).1.action = DAction.deny →
        (rlCheck (rlCfgB 300) RLState.empty "d" "k" "a" 0).2.requestHistory "k"
          <:+ RLState.empty.requestHistory "k")
    ∧ (∀ k, k ≠ "k" →
        (rlCheck (rlCfgB 300) RLState.empty "d" "k" "a" 0).2.requestHistory k
          = RLState.empty.requestHistory k) :=
  rateLimit_history_bound (rlCfgB 300) RLState.empty "d" "k" "a" 0
    (fun _ => by simp [RLState.empty, rlCfgB])

/-- C1 counterexample: with `max_requests=1, window_seconds=60,
block_duration=5`, the key `k` is blocked until time 6 after an allowed check
at time 0 and a denied check at time 1; at time 7 the block has expired
(`6 ≤ 7`), yet the very next check is denied again — the stale timestamp 0 is
still inside the 60-second window and is counted against the recomputed
window, so the post-block check neither allows nor starts a fresh count of 1
(the history stays `[0]`). -/
theorem rateLimit_unblock_not_fresh_cex :
    (rlCheck rlCfgA RLState.empty "d" "k" "a" 0).1.action = DAction.allow
    ∧ (rlCheck rlCfgA rlC1s1 "d" "k" "a" 1).1.action = DAction.deny
    ∧ rlC1s2.blockedUntil "k" = some 6
    ∧ ((6 : ℚ) ≤ 7)
    ∧ (rlCheck rlCfgA rlC1s2 "d" "k" "a" 7).1.action = DAction.deny
    ∧ (rlCheck rlCfgA rlC1s2 "d" "k" "a" 7).2.requestHistory "k" = [0] := by
  have e1 := rlCheck_none rlCfgA RLState.empty "d" "k" "a" 0 rfl
  have o1 := rlCheckOpen_allow rlCfgA RLState.empty "d" "k" "a" 0 (by decide)
  have h1hist : rlC1s1.requestHistory "k" = [0] := by
    show (rlCheck rlCfgA RLState.empty "d" "k" "a" 0).2.requestHistory "k" = [0]
    rw [e1, o1.2.1]
    rfl
  have h1blk : rlC1s1.blockedUntil "k" = none := by
    show (rlCheck rlCfgA RLState.empty "d" "k" "a" 0).2.blockedUntil "k" = none
    rw [e1, o1.2.2.1]
    rfl
  have trim1 : trimWindow (1 - (rlCfgA.windowSeconds : ℚ)) [(0 : ℚ)] = [0] := by
    have hc : ¬ ((0 : ℚ) < 1 - (rlCfgA.windowSeconds : ℚ)) := by
      norm_num [rlCfgA]
    simp [trimWindow, hc]
  have e2 := rlCheck_none rlCfgA rlC1s1 "d" "k" "a" 1 h1blk
  have hfull1 : rlCfgA.maxRequests ≤
      (trimWindow (1 - (rlCfgA.windowSeconds : ℚ)) (rlC1s1.requestHistory "k")).length := by
    rw [h1hist, trim1]
    decide
  have o2 := rlCheckOpen_deny rlCfgA rlC1s1 "d" "k" "a" 1 hfull1
  have h2blk : rlC1s2.blockedUntil "k" = some 6 := by
    show (rlCheck rlCfgA rlC1s1 "d" "k" "a" 1).2.blockedUntil "k" = some 6
    rw [e2, o2.2.2.1]
    norm_num [rlCfgA]
  have h2hist : rlC1s2.requestHistory "k" = [0] := by
    show (rlCheck rlCfgA rlC1s1 "d" "k" "a" 1).2.requestHistory "k" = [0]
    rw [e2, o2.2.1, h1hist, trim1]
  have hq := rlCheck_expired rlCfgA rlC1s2 "d" "k" "a" 7 6 h2blk (by decide)
  have trim7 : trimWindow (7 - (rlCfgA.windowSeconds : ℚ)) [(0 : ℚ)] = [0] := by
    have hc : ¬ ((0 : ℚ) < 7 - (rlCfgA.windowSeconds : ℚ)) := by
      norm_num [rlCfgA]
    simp [trimWindow, hc]
  have hfull7 : rlCfgA.maxRequests ≤
      (trimWindow (7 - (rlCfgA.windowSeconds : ℚ)) (rlC1s2.requestHistory "k")).length := by
    rw [h2hist, trim7]
    decide
  refine ⟨?_, ?_, h2blk, by decide, ?_, ?_⟩
  · rw [e1]
    exact o1.1
  · rw [e2]
    exact o2.1
  · rw [hq]
    exact (rlCheckOpen_deny rlCfgA
      { requestHistory := rlC1s2.requestHistory,
        blockedUntil := fun k => if k = "k" then none else rlC1s2.blockedUntil k }
      "d" "k" "a" 7 hfull7).1
  · rw [hq, (rlCheckOpen_deny rlCfgA
      { requestHistory := rlC1s2.requestHistory,
        blockedUntil := fun k => if k = "k" then none else rlC1s2.blockedUntil k }
      "d" "k" "a" 7 hfull7).2.1]
    show trimWindow (7 - (rlCfgA.windowSeconds : ℚ)) (rlC1s2.requestHistory "k") = [0]
    rw [h2hist, trim7]

/-- C1 amended: once a block for a key has expired (`now ≥ blockedUntil`), the
next check deletes the block and recomputes the window by trimming entries
older than `now - windowSeconds`; timestamps recorded before the block that
are still inside the window continue to count.  The post-block check is denied
exactly when the trimmed count is still at least `max_requests`; otherwise it
is allowed, appending `now` to the trimmed window and leaving no block.  It is
allowed with a fresh window count of 1 exactly when every stored timestamp for
the key has aged out of the window and `max_requests` is positive (in
particular whenever the block duration is at least the window length). -/
theorem rateLimit_unblock_amended (cfg : RLConfig) (s : RLState)
    (data key aid : String) (now bu : ℚ)
    (hb : s.blockedUntil key = some bu) (hexp : bu ≤ now) :
    ((rlCheck cfg s data key aid now).1.action = DAction.deny
      ↔ cfg.maxRequests ≤
        (trimWindow (now - (cfg.windowSeconds : ℚ)) (s.requestHistory key)).length)
    ∧ ((trimWindow (now - (cfg.windowSeconds : ℚ)) (s.requestHistory key)).length
        < cfg.maxRequests →
      (rlCheck cfg s data key aid now).1.action = DAction.allow
      ∧ (rlCheck cfg s data key aid now).2.requestHistory key
        = trimWindow (now - (cfg.windowSeconds : ℚ)) (s.requestHistory key) ++ [now]
      ∧ (rlCheck cfg s data key aid now).2.blockedUntil key = none)
    ∧ ((rlCheck cfg s data key aid now).2.requestHistory key = [now]
        ∧ (rlCheck cfg s data key aid now).1.action = DAction.allow
      ↔ (∀ t ∈ s.requestHistory key, t < now - (cfg.windowSeconds : ℚ))
        ∧ 0 < cfg.maxRequests) := by
  have hq := rlCheck_expired cfg s data key aid now bu hb hexp
  refine ⟨?_, ?_, ?_⟩
  · rw [hq]
    exact (rlCheckOpen_law cfg _ data key aid now).1
  · intro hlt
    rw [hq]
    have ha := rlCheckOpen_allow cfg
      { s with blockedUntil := fun k => if k = key then none else s.blockedUntil k }
      data key aid now hlt
    refine ⟨ha.1, ha.2.1, ?_⟩
    rw [ha.2.2.1]
    simp
  · rw [hq]
    constructor
    · rintro ⟨hhist, hact⟩
      by_cases hlen : cfg.maxRequests ≤
        (trimWindow (now - (cfg.windowSeconds : ℚ)) (s.requestHistory key)).length
      · have hd := (rlCheckOpen_deny cfg
          { s with blockedUntil := fun k => if k = key then none else s.blockedUntil k }
          data key aid now hlen).1
        rw [hact] at hd
        exact absurd hd (by decide)
      · have ha := rlCheckOpen_allow cfg
          { s with blockedUntil := fun k => if k = key then none else s.blockedUntil k }
          data key aid now (not_le.mp hlen)
        have happ : trimWindow (now - (cfg.windowSeconds : ℚ)) (s.requestHistory key)
            ++ [now] = [now] := by
          rw [← ha.2.1]
          exact hhist
        have htrim : trimWindow (now - (cfg.windowSeconds : ℚ)) (s.requestHistory key)
            = [] := by
          have hlenapp := congrArg List.length happ
          simp only [List.length_append, List.length_cons, List.length_nil] at hlenapp
          exact List.length_eq_zero.mp (by omega)
        constructor
        · intro t ht
          have := List.dropWhile_eq_nil_iff.mp htrim t ht
          simpa using this
        · have := not_le.mp hlen
          rw [htrim] at this
          simpa using this
    · rintro ⟨hold, hmax⟩
      have htrim : trimWindow (now - (cfg.windowSeconds : ℚ)) (s.requestHistory key)
          = [] := by
        apply List.dropWhile_eq_nil_iff.mpr
        intro x hx
        simpa using hold x hx
      have ha := rlCheckOpen_allow cfg
        { s with blockedUntil := fun k => if k = key then none else s.blockedUntil k }
        data key aid now
        (by
          show (trimWindow (now - (cfg.windowSeconds : ℚ)) (s.requestHistory key)).length
            < cfg.maxRequests
          rw [htrim]
          simpa using hmax)
      refine ⟨?_, ha.1⟩
      rw [ha.2.1]
      show trimWindow (now - (cfg.windowSeconds : ℚ)) (s.requestHistory key) ++ [now]
        = [now]
      rw [htrim]
      rfl

/-- Witness for C1's amended statement: an expired block at time 0, one stale
timestamp at -100, checked at time 1 with a 60-second window — the fresh-count
biconditional fires, and the block is cleared. -/
theorem rateLimit_unblock_amended_witness :
    (rlCheck rlCfgA rlStaleState "d" "k" "a" 1).1.action = DAction.allow
    ∧ (rlCheck rlCfgA rlStaleState "d" "k" "a" 1).2.requestHistory "k" = [1]
    ∧ (rlCheck rlCfgA rlStaleState "d" "k" "a" 1).2.blockedUntil "k" = none := by
  have h := rateLimit_unblock_amended rlCfgA rlStaleState "d" "k" "a" 1 0
    (by decide) (by decide)
  have hfresh := h.2.2.mpr ⟨by norm_num [rlStaleState, rlCfgA], by decide⟩
  have htrim : trimWindow ((1 : ℚ) - (rlCfgA.windowSeconds : ℚ))
      (rlStaleState.requestHistory "k") = [] := by
    apply List.dropWhile_eq_nil_iff.mpr
    intro x hx
    have hxval : x = (-100 : ℚ) := by simpa [rlStaleState] using hx
    rw [hxval]
    norm_num [rlCfgA]
  have hopen := h.2.1 (by rw [htrim]; decide)
  exact ⟨hfresh.2, hfresh.1, hopen.2.2⟩

/-! ### Similarity guard: helper lemmas -/

/-- The best-similarity accumulator of the scan loop computes the running
maximum of the pair similarities. -/
theorem findSimilarGo_fst (ch : List (String × FingerInfo)) (query : String) :
    ∀ (stored : List (String × String)) (b : ℚ) (m : Option SimMatch),
      (findSimilarGo ch query stored b m).1
        = stored.foldl (fun acc p => max acc (calculateSimilarity query p.2)) b := by
  intro stored
  induction stored with
  | nil => intro b m; rfl
  | cons hd tl ih =>
    intro b m
    obtain ⟨sh, st⟩ := hd
    simp only [findSimilarGo, List.foldl_cons]
    by_cases hlt : b < calculateSimilarity query st
    · rw [if_pos hlt]
      cases hinfo : findInfoByNormHash ch sh
      · simp only [hinfo, ih]
        congr 1
        exact (max_eq_right (le_of_lt hlt)).symm
      · simp only [hinfo, ih]
        congr 1
        exact (max_eq_right (le_of_lt hlt)).symm
    · rw [if_neg hlt, ih]
      congr 1
      exact (max_eq_left (not_lt.mp hlt)).symm

/-- Once the scan loop holds a best match, it never loses it. -/
theorem findSimilarGo_isSome (ch : List (String × FingerInfo)) (query : String) :
    ∀ (stored : List (String × String)) (b : ℚ) (x : SimMatch),
      (findSimilarGo ch query stored b (some x)).2.isSome = true := by
  intro stored
  induction stored with
  | nil => intro b x; rfl
  | cons hd tl ih =>
    intro b x
    obtain ⟨sh, st⟩ := hd
    simp only [findSimilarGo]
    by_cases hlt : b < calculateSimilarity query st
    · rw [if_pos hlt]
      cases hinfo : findInfoByNormHash ch sh
      · simp only [hinfo]
        exact ih _ _
      · simp only [hinfo]
        exact ih _ _
    · rw [if_neg hlt]
      exact ih _ _

/-- The similarity recorded in the scan loop's best match equals its best
similarity, given the invariant holds of the incoming accumulator. -/
theorem findSimilarGo_snd_sim (ch : List (String × FingerInfo)) (query : String) :
    ∀ (stored : List (String × String)) (b : ℚ) (m : Option SimMatch),
      (∀ x, m = some x → x.similarity = b) →
      ∀ y, (findSimilarGo ch query stored b m).2 = some y →
        y.similarity = (findSimilarGo ch query stored b m).1 := by
  intro stored
  induction stored with
  | nil =>
    intro b m hinv y hy
    exact hinv y hy
  | cons hd tl ih =>
    intro b m hinv y hy
    obtain ⟨sh, st⟩ := hd
    simp only [findSimilarGo] at hy ⊢
    by_cases hlt : b < calculateSimilarity query st
    · rw [if_pos hlt] at hy ⊢
      cases hinfo : findInfoByNormHash ch sh
      · simp only [hinfo] at hy ⊢
        exact ih _ _ (fun x hx => by cases hx; rfl) y hy
      · simp only [hinfo] at hy ⊢
        exact ih _ _ (fun x hx => by cases hx; rfl) y hy
    · rw [if_neg hlt] at hy ⊢
      exact ih _ _ hinv y hy

/-- If the scan loop strictly improved on its initial best similarity, it
holds a best match at the end. -/
theorem findSimilarGo_improved (ch : List (String × FingerInfo)) (query : String) :
    ∀ (stored : List (String × String)) (b : ℚ) (m : Option SimMatch),
      b < (findSimilarGo ch query stored b m).1 →
      (findSimilarGo ch query stored b m).2.isSome = true := by
  intro stored
  induction stored with
  | nil => intro b m h; exact absurd h (lt_irrefl b)
  | cons hd tl ih =>
    intro b m h
    obtain ⟨sh, st⟩ := hd
    simp only [findSimilarGo] at h ⊢
    by_cases hlt : b < calculateSimilarity query st
    · rw [if_pos hlt] at h ⊢
      cases hinfo : findInfoByNormHash ch sh
      · simp only [hinfo] at h ⊢
        exact findSimilarGo_isSome ch query tl _ _
      · simp only [hinfo] at h ⊢
        exact findSimilarGo_isSome ch query tl _ _
    · rw [if_neg hlt] at h ⊢
      exact ih b m h

/-- For a query with at least one token, the code's similarity agrees with the
spec-side Jaccard on every stored text (the guards differ only on the
token-free query the fuzzy path never reaches). -/
theorem calculateSimilarity_eq_spec (q : String) (hq : pySplit q ≠ []) (t : String) :
    calculateSimilarity q t = specJaccardSimilarity q t := by
  have hqne : q ≠ "" := by
    intro h
    rw [h] at hq
    exact hq rfl
  have hqs : (pySplit q).toFinset ≠ ∅ := by
    cases hsp : pySplit q with
    | nil => exact absurd hsp hq
    | cons w ws => simp [hsp]
  by_cases ht : t = ""
  · subst ht
    have hsplit : pySplit "" = [] := rfl
    simp only [calculateSimilarity, specJaccardSimilarity, hsplit,
      List.toFinset_nil, or_true, if_true]
    rw [if_neg (fun hand => hqs hand.1)]
    simp
  · simp only [calculateSimilarity, specJaccardSimilarity]
    have hcond : ¬ (q = "" ∨ t = "") := by
      rintro (h | h)
      exacts [hqne h, ht h]
    have hnb : ¬ ((pySplit q).toFinset = ∅ ∧ (pySplit t).toFinset = ∅) := by
      rintro ⟨h1, _⟩
      exact hqs h1
    have hu : 0 < ((pySplit q).toFinset ∪ (pySplit t).toFinset).card := by
      rw [Finset.card_pos]
      exact Finset.Nonempty.mono Finset.subset_union_left
        (Finset.nonempty_iff_ne_empty.mpr hqs)
    rw [if_neg hcond, if_neg hnb, if_neg hnb, if_pos hu]

/-- Congruence for folded running maxima. -/
theorem foldl_max_congr {α : Type} (f g : α → ℚ) :
    ∀ (l : List α), (∀ x ∈ l, f x = g x) →
      ∀ b, l.foldl (fun a x => max a (f x)) b = l.foldl (fun a x => max a (g x)) b := by
  intro l
  induction l with
  | nil => intro _ b; rfl
  | cons hd tl ih =>
    intro h b
    rw [List.foldl_cons, List.foldl_cons, h hd (by simp)]
    exact ih (fun x hx => h x (by simp [hx])) _

/-- For a query with at least one token, the spec-side maximum similarity over
the stored normalized texts equals the best similarity computed by the code's
scan loop. -/
theorem specMax_eq_code (s : SimState) (q : String) (hq : pySplit q ≠ []) :
    specMaxSimilarity (s.normalizedContent.map Prod.snd) q
      = (findSimilarGo s.contentHashes q s.normalizedContent 0 none).1 := by
  rw [findSimilarGo_fst, specMaxSimilarity, List.foldl_map]
  exact foldl_max_congr _ _ s.normalizedContent
    (fun p _ => (calculateSimilarity_eq_spec q hq p.2).symm) 0

/-- Fuzzy-hit run of `check`: not an exact duplicate, fuzzy matching on, a
best match found at or above the threshold — the decision's evidence is the
base evidence updated with the fuzzy-duplicate fields (for either configured
action). -/
theorem simCheck_fuzzy_hit (cfg : SimConfig) (s : SimState)
    (text auditId : String) (ur mn : Option String) (now : ℚ) (y : SimMatch)
    (hnodup : s.contentHashes.lookup (md5Model text) = none)
    (hfuzzy : cfg.useFuzzyMatching = true)
    (hfind : findSimilarContent s (normalizeText text) = some y)
    (hth : cfg.similarityThreshold ≤ y.similarity) :
    (simCheck cfg s text auditId ur mn now).1.evidence =
      dictUpdate
        [("content_hash", EValue.vStr (md5Model text)),
         ("normalized_hash", EValue.vStr (md5Model (normalizeText text))),
         ("text_length", EValue.vNum text.length),
         ("normalized_length", EValue.vNum (normalizeText text).length)]
        [("duplicate_type", EValue.vStr "fuzzy"),
         ("similarity_score", EValue.vNum y.similarity),
         ("similar_hash", EValue.vStr y.mhash),
         ("similar_audit_id",
           match y.mauditId with
           | some a => EValue.vStr a
           | none => EValue.vNone)] := by
  cases hact : cfg.actionBlock <;>
    simp [simCheck, hnodup, hfuzzy, hfind, hth, handleSimilarityDetection, hact,
      Decision.denyD, Decision.allowD]

/-- Fuzzy-miss run of `check`: not an exact duplicate and no fuzzy hit — the
decision is a plain allow with the base evidence. -/
theorem simCheck_fuzzy_miss (cfg : SimConfig) (s : SimState)
    (text auditId : String) (ur mn : Option String) (now : ℚ)
    (hnodup : s.contentHashes.lookup (md5Model text) = none)
    (hfh : (if cfg.useFuzzyMatching = true then
        findSimilarContent s (normalizeText text) else none) = none) :
    (simCheck cfg s text auditId ur mn now).1 =
      Decision.allowD text auditId
        [("content_hash", EValue.vStr (md5Model text)),
         ("normalized_hash", EValue.vStr (md5Model (normalizeText text))),
         ("text_length", EValue.vNum text.length),
         ("normalized_length", EValue.vNum (normalizeText text).length)] := by
  simp [simCheck, hnodup, hfh]

/-- Below-threshold run of `check`: a best fuzzy match exists but scores below
the threshold — still a plain allow with the base evidence. -/
theorem simCheck_fuzzy_below (cfg : SimConfig) (s : SimState)
    (text auditId : String) (ur mn : Option String) (now : ℚ) (y : SimMatch)
    (hnodup : s.contentHashes.lookup (md5Model text) = none)
    (hfh : (if cfg.useFuzzyMatching = true then
        findSimilarContent s (normalizeText text) else none) = some y)
    (hth : ¬ cfg.similarityThreshold ≤ y.similarity) :
    (simCheck cfg s text auditId ur mn now).1 =
      Decision.allowD text auditId
        [("content_hash", EValue.vStr (md5Model text)),
         ("normalized_hash", EValue.vStr (md5Model (normalizeText text))),
         ("text_length", EValue.vNum text.length),
         ("normalized_length", EValue.vNum (normalizeText text).length)] := by
  simp [simCheck, hnodup, hfh, hth]

/-! ### Similarity claims -/

/-- C6 counterexample: with `similarity_threshold = 0` (a legal configuration
value) and `hello` stored, checking `world` gives a spec-side maximum Jaccard
similarity of 0, which is ≥ the threshold — so by the claim a near-duplicate
must be reported — yet the code allows the input with no duplicate marker,
because `_find_similar_content` returns a match only when the best similarity
is strictly positive. -/
theorem similarity_threshold_zero_cex :
    simCfgZero.similarityThreshold
      ≤ specMaxSimilarity (simC6s1.normalizedContent.map Prod.snd) (normalizeText "world")
    ∧ (simCheck simCfgZero simC6s1 "world" "a2" none none 1).1.action = DAction.allow
    ∧ (simCheck simCfgZero simC6s1 "world" "a2" none none 1).1.evidence.lookup
        "duplicate_type" = none := by
  have hsim : calculateSimilarity "world" "hello" = 0 := by
    rw [show calculateSimilarity "world" "hello" = ((0 : ℕ) : ℚ) / ((2 : ℕ) : ℚ) from rfl]
    norm_num
  have hfind : findSimilarContent simC6s1 (normalizeText "world") = none := by
    show findSimilarContent simC6s1 "world" = none
    rw [findSimilarContent, if_neg (by decide : ¬ ("world" = ""))]
    have hr : findSimilarGo simC6s1.contentHashes "world" simC6s1.normalizedContent 0 none
        = (0, none) := by
      rw [show simC6s1.normalizedContent = [("hello", "hello")] from rfl]
      simp only [findSimilarGo, hsim]
      rw [if_neg (lt_irrefl (0 : ℚ))]
    rw [hr]
    simp
  have hfh : (if simCfgZero.useFuzzyMatching = true then
      findSimilarContent simC6s1 (normalizeText "world") else none) = none := by
    rw [if_pos (show simCfgZero.useFuzzyMatching = true from rfl)]
    exact hfind
  have hdec := simCheck_fuzzy_miss simCfgZero simC6s1 "world" "a2" none none 1
    (by decide) hfh
  refine ⟨?_, ?_, ?_⟩
  · rw [show simCfgZero.similarityThreshold = 0 from rfl]
    rw [show specMaxSimilarity (simC6s1.normalizedContent.map Prod.snd)
      (normalizeText "world") = max 0 (((0 : ℕ) : ℚ) / ((2 : ℕ) : ℚ)) from rfl]
    exact le_max_left 0 _
  · rw [hdec]
    rfl
  · rw [hdec]
    rfl

/-- C6 amended: when fuzzy matching is enabled and the input is not an exact
duplicate, let M be the maximum spec-side Jaccard similarity of the normalized
input against every stored normalized text.  If the normalized input has at
least one token, a near-duplicate is reported if and only if M is strictly
positive AND at least the threshold (a zero maximum is never reported, even at
threshold 0), and when reported the similarity score carried in the evidence
equals M; an input whose normalized text is empty is never reported as a
near-duplicate.  (On the reachable comparisons the code's pair similarity
coincides with the claim's Jaccard values, including 0 for an
empty-vs-nonempty pair; the claim's both-empty = 1.0 rule governs no reachable
comparison, as the guard skips fuzzy matching entirely for a token-free
input.) -/
theorem similarity_fuzzy_report_amended (cfg : SimConfig) (s : SimState)
    (text auditId : String) (ur mn : Option String) (now : ℚ)
    (hfuzzy : cfg.useFuzzyMatching = true)
    (hnodup : s.contentHashes.lookup (md5Model text) = none) :
    (pySplit (normalizeText text) ≠ [] →
      (((simCheck cfg s text auditId ur mn now).1.evidence.lookup "duplicate_type"
          = some (EValue.vStr "fuzzy"))
        ↔ (0 < specMaxSimilarity (s.normalizedContent.map Prod.snd) (normalizeText text)
          ∧ cfg.similarityThreshold
            ≤ specMaxSimilarity (s.normalizedContent.map Prod.snd) (normalizeText text)))
      ∧ ((simCheck cfg s text auditId ur mn now).1.evidence.lookup "duplicate_type"
          = some (EValue.vStr "fuzzy") →
        (simCheck cfg s text auditId ur mn now).1.evidence.lookup "similarity_score"
          = some (EValue.vNum
            (specMaxSimilarity (s.normalizedContent.map Prod.snd) (normalizeText text)))))
    ∧ (normalizeText text = "" →
      (simCheck cfg s text auditId ur mn now).1.evidence.lookup "duplicate_type"
        = none) := by
  constructor
  · intro hq
    have hqne : normalizeText text ≠ "" := by
      intro h
      rw [h] at hq
      exact hq rfl
    have hM := specMax_eq_code s (normalizeText text) hq
    by_cases hpos : 0 <
      (findSimilarGo s.contentHashes (normalizeText text) s.normalizedContent 0 none).1
    · obtain ⟨y, hy⟩ := Option.isSome_iff_exists.mp
        (findSimilarGo_improved s.contentHashes (normalizeText text)
          s.normalizedContent 0 none hpos)
      have hysim : y.similarity =
          (findSimilarGo s.contentHashes (normalizeText text) s.normalizedContent 0 none).1 :=
        findSimilarGo_snd_sim s.contentHashes (normalizeText text) s.normalizedContent 0 none
          (fun x hx => Option.noConfusion hx) y hy
      have hfind : findSimilarContent s (normalizeText text) = some y := by
        rw [findSimilarContent, if_neg hqne]
        simp only [if_pos hpos]
        exact hy
      by_cases hth : cfg.similarityThreshold ≤ y.similarity
      · have hev := simCheck_fuzzy_hit cfg s text auditId ur mn now y hnodup hfuzzy hfind hth
        have hdt : ∀ (a b c d sc sh sa : EValue),
            (dictUpdate [("content_hash", a), ("normalized_hash", b),
                ("text_length", c), ("normalized_length", d)]
              [("duplicate_type", EValue.vStr "fuzzy"), ("similarity_score", sc),
               ("similar_hash", sh), ("similar_audit_id", sa)]).lookup "duplicate_type"
              = some (EValue.vStr "fuzzy") :=
          fun _ _ _ _ _ _ _ => rfl
        have hsc : ∀ (a b c d sc sh sa : EValue),
            (dictUpdate [("content_hash", a), ("normalized_hash", b),
                ("text_length", c), ("normalized_length", d)]
              [("duplicate_type", EValue.vStr "fuzzy"), ("similarity_score", sc),
               ("similar_hash", sh), ("similar_audit_id", sa)]).lookup "similarity_score"
              = some sc :=
          fun _ _ _ _ _ _ _ => rfl
        constructor
        · rw [hev]
          constructor
          · intro _
            refine ⟨by rw [hM]; exact hpos, ?_⟩
            rw [hM, ← hysim]
            exact hth
          · intro _
            exact hdt _ _ _ _ _ _ _
        · intro _
          rw [hev, hsc _ _ _ _ _ _ _, hysim, hM]
      · have hfh : (if cfg.useFuzzyMatching = true then
            findSimilarContent s (normalizeText text) else none) = some y := by
          rw [if_pos hfuzzy]
          exact hfind
        have hdec := simCheck_fuzzy_below cfg s text auditId ur mn now y hnodup hfh hth
        have hlook : (simCheck cfg s text auditId ur mn now).1.evidence.lookup
            "duplicate_type" = none := by
          rw [hdec]
          rfl
        constructor
        · rw [hlook]
          constructor
          · intro h
            exact absurd h (by simp)
          · rintro ⟨_, hT⟩
            rw [hM, ← hysim] at hT
            exact absurd hT hth
        · intro h
          rw [hlook] at h
          exact absurd h (by simp)
    · have hfindn : findSimilarContent s (normalizeText text) = none := by
        rw [findSimilarContent, if_neg hqne]
        simp only [if_neg hpos]
      have hfh : (if cfg.useFuzzyMatching = true then
          findSimilarContent s (normalizeText text) else none) = none := by
        rw [if_pos hfuzzy]
        exact hfindn
      have hdec := simCheck_fuzzy_miss cfg s text auditId ur mn now hnodup hfh
      have hlook : (simCheck cfg s text auditId ur mn now).1.evidence.lookup
          "duplicate_type" = none := by
        rw [hdec]
        rfl
      constructor
      · rw [hlook]
        constructor
        · intro h
          exact absurd h (by simp)
        · rintro ⟨h0, _⟩
          rw [hM] at h0
          exact absurd h0 hpos
      · intro h
        rw [hlook] at h
        exact absurd h (by simp)
  · intro hq0
    have hfindn : findSimilarContent s (normalizeText text) = none := by
      rw [findSimilarContent, if_pos hq0]
    have hfh : (if cfg.useFuzzyMatching = true then
        findSimilarContent s (normalizeText text) else none) = none := by
      rw [if_pos hfuzzy]
      exact hfindn
    have hdec := simCheck_fuzzy_miss cfg s text auditId ur mn now hnodup hfh
    rw [hdec]
    rfl

/-- Witness for C6's amended statement: with threshold 0, `hello` stored and
input `hello there` (spec-side maximum similarity 1/2, positive and above the
threshold), the near-duplicate is reported. -/
theorem similarity_fuzzy_report_amended_witness :
    (simCheck simCfgZero simC6s1 "hello there" "a2" none none 1).1.evidence.lookup
      "duplicate_type" = some (EValue.vStr "fuzzy") := by
  have h := (similarity_fuzzy_report_amended simCfgZero simC6s1 "hello there" "a2"
    none none 1 rfl (by decide)).1 (by decide)
  apply h.1.mpr
  have hval : specMaxSimilarity (simC6s1.normalizedContent.map Prod.snd)
      (normalizeText "hello there") = max 0 (((1 : ℕ) : ℚ) / ((2 : ℕ) : ℚ)) := rfl
  constructor
  · rw [hval, lt_max_iff]
    right
    norm_num
  · rw [show simCfgZero.similarityThreshold = 0 from rfl, hval]
    exact le_max_left 0 _

/-- C5 (code bug evaluated): with history capacity 1, after storing `X!` and
then the distinct `Y!`, the oldest exact-hash entry is evicted (the exact
store keeps its bound and `X!` is no longer an exact duplicate), but its
paired normalized entry (key: hash of `x`) is NOT removed — the cleanup looks
the *content* hash up in the *normalized*-hash-keyed store — so the normalized
store holds 2 > 1 entries, violating the claimed bound and paired eviction. -/
theorem similarity_eviction_leak_eval :
    simCfgLeak.maxHistorySize = 1
    ∧ simC5s1.contentHashes.length = 1
    ∧ simC5s1.normalizedContent.length = 1
    ∧ simC5s2.contentHashes.length = 1
    ∧ simC5s2.contentHashes.lookup (md5Model "X!") = none
    ∧ simC5s2.normalizedContent.length = 2
    ∧ simC5s2.normalizedContent.lookup (md5Model (normalizeText "X!")) = some "x"
    ∧ (simCheck simCfgLeak simC5s2 "X!" "a3" none none 2).1.evidence.lookup
        "duplicate_type" = none := by
  decide

set_option maxRecDepth 8000 in
/-- C8 (code bug evaluated): invoking the synchronous `check` of an
`AsyncGuard` while an event loop is running does raise promptly, but the error
the caller sees is `asyncio.run`'s generic message — the guard's own
descriptive `RuntimeError` is raised inside its `try` block and swallowed by
its own `except RuntimeError: pass` — so the surfaced error names neither the
guard nor `acheck`, contrary to the claim; without a running loop the call
degrades to running `acheck`. -/
theorem asyncGuard_swallowed_error_eval :
    asyncGuardCheck true "my_guard" (Decision.allowD "x" "a" [])
      = Except.error asyncioRunMsg
    ∧ asyncioRunMsg ≠ syncCheckDescriptiveMsg "my_guard"
    ∧ ¬ ("my_guard".data <:+: asyncioRunMsg.data)
    ∧ ¬ ("acheck".data <:+: asyncioRunMsg.data)
    ∧ ("my_guard".data <:+: (syncCheckDescriptiveMsg "my_guard").data)
    ∧ ("acheck".data <:+: (syncCheckDescriptiveMsg "my_guard").data)
    ∧ asyncGuardCheck false "my_guard" (Decision.allowD "x" "a" [])
      = Except.ok (Decision.allowD "x" "a" []) := by
  decide

end SafeLLM
